import Mathlib

/-!
Shallow embedding of the Vortex constant-product AMM math core
(`programs/vortex/src/math.rs` and `programs/vortex/src/constants.rs`).

Machine integers are modelled as `Nat`:
* a `u64` value is a natural number `≤ U64_MAX`;
* Rust's `as u64` narrowing cast is an explicit `% U64_MOD`;
* bare `u64` arithmetic that can overflow wraps modulo `2^64`
  (Rust release-mode semantics); an unguarded division by zero is a
  Rust panic and is modelled by the `panic` outcome;
* `checked_mul` / `checked_add` / `checked_sub` / `checked_div` on
  `u128` (resp. `u64`) are modelled by explicit range guards that
  produce the error the source maps them to via `ok_or`;
* `require!(cond, e)` is `if ¬ cond then .err e else ...`.
-/

namespace Vortex

/-- Modulus of u64 arithmetic, 2^64. -/
def U64_MOD : Nat := 2 ^ 64

/-- Largest u64 value, 2^64 - 1. -/
def U64_MAX : Nat := 2 ^ 64 - 1

/-- Modulus of u128 arithmetic, 2^128. -/
def U128_MOD : Nat := 2 ^ 128

/-- Error codes of the program (errors.rs, AmmError). -/
inductive AmmError where
  | InvalidFeeParameters
  | FeeTooHigh
  | PoolAlreadyInitialized
  | IdenticalTokenMints
  | PoolNotInitialized
  | InitialLiquidityTooSmall
  | InsufficientLiquidityMinted
  | InsufficientLiquidityBurned
  | SlippageExceeded
  | AmountTooSmall
  | InsufficientOutputAmount
  | InsufficientLiquidity
  | InvalidSwapDirection
  | OutputExceedsReserves
  | MathOverflow
  | DivisionByZero
  | InvariantViolation
  | InvalidTokenMint
  | InvalidVault
  | VaultBalanceMismatch
  | Unauthorized
  | PoolPaused
  deriving DecidableEq, Repr

/-- Outcome of running one of the math functions: an Anchor Result
value (`ok` / `err`), or a Rust panic (`panic`) from an unguarded
arithmetic fault. -/
inductive RunResult (α : Type) where
  | ok : α → RunResult α
  | err : AmmError → RunResult α
  | panic : RunResult α
  deriving DecidableEq, Repr

/-- Basis points denominator (100% = 10000 BPS), constants.rs. -/
def BPS_DENOMINATOR : Nat := 10000

/-- Minimum liquidity locked forever on first deposit, constants.rs. -/
def MINIMUM_LIQUIDITY : Nat := 1000

/-- Maximum fee allowed (10% = 1000 BPS), constants.rs. -/
def MAX_FEE_BPS : Nat := 1000

/-- Minimum fee allowed (0.01% = 1 BPS), constants.rs. -/
def MIN_FEE_BPS : Nat := 1

/-- Embedding of validate_fee (constants.rs): false when the
denominator is zero, otherwise tests whether
`(numerator * BPS_DENOMINATOR) / denominator` lies in
`[MIN_FEE_BPS, MAX_FEE_BPS]`.  The multiplication is an unchecked
`u64` multiply, so it wraps modulo `2^64`. -/
def validate_fee (numerator denominator : Nat) : Bool :=
  if denominator = 0 then
    false
  else
    decide (MIN_FEE_BPS ≤ numerator * BPS_DENOMINATOR % U64_MOD / denominator) &&
      decide (numerator * BPS_DENOMINATOR % U64_MOD / denominator ≤ MAX_FEE_BPS)

/-- Loop of sqrt (math.rs): `while z < x { x = z; z = (y / z + z) / 2; }`.
Here `y / z` with `z = 0` is a Rust division-by-zero panic, and the
`u64` addition `y / z + z` wraps modulo `2^64`. -/
def sqrtLoop (y z x : Nat) : RunResult Nat :=
  if h : z < x then
    if z = 0 then .panic
    else sqrtLoop y ((y / z + z) % U64_MOD / 2) z
  else .ok x
termination_by x
decreasing_by exact h

/-- Embedding of sqrt (math.rs): Babylonian integer square root.
`z` starts at `(y + 1) / 2` (the `u64` addition `y + 1` wraps modulo
`2^64`), `x` starts at `y`. -/
def sqrt (y : Nat) : RunResult Nat :=
  if y = 0 then .ok 0
  else sqrtLoop y ((y + 1) % U64_MOD / 2) y

/-- Embedding of calculate_swap_output (math.rs).  The fee is
`(amount_in as u128 * fee_numerator) / fee_denominator` narrowed by
`as u64`; the net input is `amount_in.checked_sub(fee_amount)`; the
output is `(net * reserve_out) / (reserve_in + net)` in `u128`
narrowed by `as u64`, and must be positive and strictly below
`reserve_out`. -/
def calculate_swap_output
    (amount_in reserve_in reserve_out fee_numerator fee_denominator : Nat) :
    RunResult (Nat × Nat) :=
  if ¬ 0 < amount_in then .err .AmountTooSmall
  else if ¬ 0 < reserve_in then .err .PoolNotInitialized
  else if ¬ 0 < reserve_out then .err .PoolNotInitialized
  else if U128_MOD ≤ amount_in * fee_numerator then .err .MathOverflow
  else if fee_denominator = 0 then .err .DivisionByZero
  else
    let fee_amount := amount_in * fee_numerator / fee_denominator % U64_MOD
    if amount_in < fee_amount then .err .MathOverflow
    else
      let amount_in_with_fee := amount_in - fee_amount
      if U128_MOD ≤ amount_in_with_fee * reserve_out then .err .MathOverflow
      else if U128_MOD ≤ reserve_in + amount_in_with_fee then .err .MathOverflow
      else if reserve_in + amount_in_with_fee = 0 then .err .DivisionByZero
      else
        let amount_out :=
          amount_in_with_fee * reserve_out / (reserve_in + amount_in_with_fee) % U64_MOD
        if ¬ 0 < amount_out then .err .InsufficientOutputAmount
        else if ¬ amount_out < reserve_out then .err .InsufficientLiquidity
        else .ok (amount_out, fee_amount)

/-- Embedding of calculate_initial_liquidity (math.rs): geometric mean
`sqrt(amount_a * amount_b)`, with the product required to fit `u64`
before the root is taken, and the result required to reach
`MINIMUM_LIQUIDITY`. -/
def calculate_initial_liquidity (amount_a amount_b : Nat) : RunResult Nat :=
  if U128_MOD ≤ amount_a * amount_b then .err .MathOverflow
  else if ¬ amount_a * amount_b ≤ U64_MAX then .err .MathOverflow
  else
    match sqrt (amount_a * amount_b % U64_MOD) with
    | .ok liquidity =>
        if ¬ MINIMUM_LIQUIDITY ≤ liquidity then .err .InitialLiquidityTooSmall
        else .ok liquidity
    | .err e => .err e
    | .panic => .panic

/-- Embedding of calculate_liquidity_to_mint (math.rs): both candidate
share counts are `u128` quotients narrowed by a bare `as u64` cast
(modelled by `% U64_MOD`); the minimum of the two is returned. -/
def calculate_liquidity_to_mint
    (amount_a amount_b reserve_a reserve_b total_supply : Nat) : RunResult Nat :=
  if ¬ (0 < reserve_a ∧ 0 < reserve_b) then .err .PoolNotInitialized
  else if ¬ 0 < total_supply then .err .PoolNotInitialized
  else if U128_MOD ≤ amount_a * total_supply then .err .MathOverflow
  else if reserve_a = 0 then .err .DivisionByZero
  else
    let liquidity_a := amount_a * total_supply / reserve_a % U64_MOD
    if U128_MOD ≤ amount_b * total_supply then .err .MathOverflow
    else if reserve_b = 0 then .err .DivisionByZero
    else
      let liquidity_b := amount_b * total_supply / reserve_b % U64_MOD
      let liquidity := min liquidity_a liquidity_b
      if ¬ 0 < liquidity then .err .InsufficientLiquidityMinted
      else .ok liquidity

/-- Embedding of calculate_amounts_for_liquidity (math.rs):
proportional withdrawal `amount_x = reserve_x * liquidity /
total_supply`, each quotient narrowed by `as u64`. -/
def calculate_amounts_for_liquidity
    (liquidity reserve_a reserve_b total_supply : Nat) : RunResult (Nat × Nat) :=
  if ¬ 0 < liquidity then .err .InsufficientLiquidityBurned
  else if ¬ 0 < total_supply then .err .PoolNotInitialized
  else if ¬ liquidity ≤ total_supply then .err .InsufficientLiquidityBurned
  else if U128_MOD ≤ reserve_a * liquidity then .err .MathOverflow
  else if total_supply = 0 then .err .DivisionByZero
  else
    let amount_a := reserve_a * liquidity / total_supply % U64_MOD
    if U128_MOD ≤ reserve_b * liquidity then .err .MathOverflow
    else if total_supply = 0 then .err .DivisionByZero
    else
      let amount_b := reserve_b * liquidity / total_supply % U64_MOD
      if ¬ (0 < amount_a ∧ 0 < amount_b) then .err .InsufficientOutputAmount
      else .ok (amount_a, amount_b)

/-- Embedding of verify_invariant (math.rs): `k_new ≥ k_old` with both
products computed by checked_mul in `u128`. -/
def verify_invariant (old_reserve_a old_reserve_b new_reserve_a new_reserve_b : Nat) :
    RunResult Unit :=
  if U128_MOD ≤ old_reserve_a * old_reserve_b then .err .MathOverflow
  else if U128_MOD ≤ new_reserve_a * new_reserve_b then .err .MathOverflow
  else if ¬ old_reserve_a * old_reserve_b ≤ new_reserve_a * new_reserve_b then
    .err .InvariantViolation
  else .ok ()

-- ============================================================
-- Range facts
-- ============================================================

theorem U64_MAX_lt_MOD : U64_MAX < U64_MOD := by norm_num [U64_MAX, U64_MOD]

theorem U64_MAX_add_one : U64_MAX + 1 = U64_MOD := by norm_num [U64_MAX, U64_MOD]

theorem U64_sq_lt_U128 : U64_MAX * U64_MAX < U128_MOD := by
  norm_num [U64_MAX, U128_MOD]

-- ============================================================
-- The Babylonian loop computes the integer square root
-- ============================================================

theorem sqrtLoop_exit (y z x : Nat) (h : ¬ z < x) : sqrtLoop y z x = .ok x := by
  rw [sqrtLoop]
  simp [h]

theorem sqrtLoop_panic (y x : Nat) (h : 0 < x) : sqrtLoop y 0 x = .panic := by
  rw [sqrtLoop]
  simp [h]

theorem sqrtLoop_go (y z x : Nat) (h : z < x) (hz : z ≠ 0) :
    sqrtLoop y z x = sqrtLoop y ((y / z + z) % U64_MOD / 2) z := by
  rw [sqrtLoop]
  simp [h, hz]

theorem two_mul_le_sq_add_sq (s z : Nat) : 2 * s * z ≤ s * s + z * z := by
  rcases le_total s z with h | h
  · obtain ⟨d, rfl⟩ := Nat.exists_eq_add_of_le h
    nlinarith
  · obtain ⟨d, rfl⟩ := Nat.exists_eq_add_of_le h
    nlinarith

/-- For `1 ≤ z ≤ y` the Babylonian update value `y / z + z` stays within
`y + 1`, hence within `u64` range for `y ≤ u64::MAX - 1`. -/
theorem div_add_self_le_succ (y z : Nat) (hz : 1 ≤ z) (hzy : z ≤ y) :
    y / z + z ≤ y + 1 := by
  have h := Nat.div_mul_le_self y z
  rcases Nat.eq_zero_or_pos (y / z) with h0 | h1
  · omega
  · have hq : y / z + z ≤ y / z * z + 1 := by
      obtain ⟨q, hqe⟩ := Nat.exists_eq_add_of_le h1
      obtain ⟨w, hwe⟩ := Nat.exists_eq_add_of_le hz
      rw [hqe, hwe]
      nlinarith
    linarith

/-- Integer AM-GM: every Babylonian iterate `(y / z + z) / 2` with
`z ≥ 1` is at least the integer square root of `y`. -/
theorem sqrt_le_avg (y z : Nat) (hz : 1 ≤ z) : Nat.sqrt y ≤ (y / z + z) / 2 := by
  have hs : Nat.sqrt y * Nat.sqrt y ≤ y := Nat.sqrt_le y
  rw [Nat.le_div_iff_mul_le (by norm_num : 0 < 2)]
  have hdiv : Nat.sqrt y * Nat.sqrt y / z ≤ y / z := Nat.div_le_div_right hs
  have key : Nat.sqrt y * 2 ≤ Nat.sqrt y * Nat.sqrt y / z + z := by
    set s := Nat.sqrt y with hsdef
    by_contra hcon
    push_neg at hcon
    have hdm : z * (s * s / z) + s * s % z = s * s := Nat.div_add_mod (s * s) z
    have hmlt : s * s % z < z := Nat.mod_lt _ hz
    have hmul : (s * s / z + z + 1) * z ≤ s * 2 * z :=
      Nat.mul_le_mul_right z (by omega)
    have hexp : (s * s / z + z + 1) * z = z * (s * s / z) + z * z + z := by ring
    have hsq : s * 2 * z ≤ s * s + z * z := by
      have := two_mul_le_sq_add_sq s z
      linarith
    linarith
  linarith

/-- Correctness of the Babylonian loop: starting from any state
satisfying the loop invariant (`z` is the iterate computed from `x`,
`x` is an upper bound for the root, and everything is within `u64`
range), the loop returns the integer square root of `y`. -/
theorem sqrtLoop_eq (y : Nat) (hy : 1 ≤ y) (hyM : y + 1 ≤ U64_MAX) :
    ∀ x z, 1 ≤ x → x ≤ y → z = (y / x + x) / 2 → Nat.sqrt y ≤ x →
      sqrtLoop y z x = .ok (Nat.sqrt y) := by
  intro x
  induction x using Nat.strong_induction_on with
  | _ x ih =>
    intro z hx1 hxy hzdef hsx
    by_cases hlt : z < x
    · have hs1 : 1 ≤ Nat.sqrt y := Nat.sqrt_pos.mpr hy
      have hzs : Nat.sqrt y ≤ z := hzdef ▸ sqrt_le_avg y x hx1
      have hz1 : 1 ≤ z := le_trans hs1 hzs
      have hzy : z ≤ y := le_trans (Nat.le_of_lt hlt) hxy
      have hnw : y / z + z ≤ y + 1 := div_add_self_le_succ y z hz1 hzy
      have hmod : (y / z + z) % U64_MOD = y / z + z :=
        Nat.mod_eq_of_lt (lt_of_le_of_lt (le_trans hnw hyM) U64_MAX_lt_MOD)
      rw [sqrtLoop_go y z x hlt (by omega), hmod]
      exact ih z hlt ((y / z + z) / 2) hz1 hzy rfl hzs
    · rw [sqrtLoop_exit y z x hlt]
      have hxz : x ≤ z := Nat.le_of_not_lt hlt
      have h2x : x * 2 ≤ y / x + x := by
        have hx2 : x ≤ (y / x + x) / 2 := hzdef ▸ hxz
        rwa [Nat.le_div_iff_mul_le (by norm_num : 0 < 2)] at hx2
      have hyx : x ≤ y / x := by omega
      have hxx : x * x ≤ y := by
        rwa [Nat.le_div_iff_mul_le hx1] at hyx
      have hxeq : x = Nat.sqrt y := le_antisymm (Nat.le_sqrt.mpr hxx) hsx
      rw [hxeq]

/-- On every input except u64::MAX the embedded sqrt computes the
integer square root without a fault. -/
theorem sqrt_ok (y : Nat) (hy : y ≤ U64_MAX - 1) : sqrt y = .ok (Nat.sqrt y) := by
  rcases Nat.eq_zero_or_pos y with h0 | h1
  · subst h0
    rfl
  · have hyM : y + 1 ≤ U64_MAX := by
      norm_num [U64_MAX] at hy ⊢
      omega
    have hmod : (y + 1) % U64_MOD = y + 1 :=
      Nat.mod_eq_of_lt (lt_of_le_of_lt hyM U64_MAX_lt_MOD)
    unfold sqrt
    rw [if_neg (by omega), hmod]
    exact sqrtLoop_eq y h1 hyM y ((y + 1) / 2) h1 (le_refl y)
      (by rw [Nat.div_self h1, Nat.add_comm]) (Nat.sqrt_le_self y)

/-- At y = u64::MAX the first step `y + 1` wraps to 0, the loop is
entered with `z = 0`, and the division `y / z` faults: sqrt panics
instead of returning. -/
theorem sqrt_u64max : sqrt U64_MAX = .panic := by
  have h1 : (U64_MAX + 1) % U64_MOD = 0 := by
    rw [U64_MAX_add_one, Nat.mod_self]
  have h2 : (0 : Nat) < U64_MAX := by norm_num [U64_MAX]
  unfold sqrt
  rw [if_neg (by norm_num [U64_MAX]), h1, Nat.zero_div]
  exact sqrtLoop_panic U64_MAX U64_MAX h2

-- ============================================================
-- C4 : sqrt returns the floor square root
-- ============================================================

/-- C4 (amended): for every u64 input y except u64::MAX itself,
integer_sqrt(y) terminates and returns the exact floor of the real
square root (so sqrt 0 = 0 and perfect squares give the exact root).
At y = u64::MAX the computation of y + 1 overflows u64 and the
function panics instead of returning. -/
theorem sqrt_returns_floor (y : Nat) (hy : y ≤ U64_MAX - 1) :
    sqrt y = .ok (Nat.sqrt y) ∧ Nat.sqrt y * Nat.sqrt y ≤ y ∧
      y < (Nat.sqrt y + 1) * (Nat.sqrt y + 1) :=
  ⟨sqrt_ok y hy, Nat.sqrt_le y, by simpa [Nat.succ_eq_add_one] using Nat.lt_succ_sqrt y⟩

/-- C4 witness: sqrt 144 returns 12 = floor of the square root. -/
theorem sqrt_returns_floor_witness : sqrt 144 = .ok 12 := by
  have h12 : Nat.sqrt 144 = 12 := (Nat.eq_sqrt.mpr (by norm_num)).symm
  have h := (sqrt_returns_floor 144 (by norm_num [U64_MAX])).1
  rwa [h12] at h

/-- C4 counterexample: the claim promises a result for every u64 input,
but at y = u64::MAX the function panics, even though the floor square
root 2^32 - 1 exists. -/
theorem sqrt_u64max_counterexample :
    sqrt U64_MAX = .panic ∧ (2 ^ 32 - 1) * (2 ^ 32 - 1) ≤ U64_MAX ∧
      U64_MAX < 2 ^ 32 * 2 ^ 32 :=
  ⟨sqrt_u64max, by norm_num [U64_MAX], by norm_num [U64_MAX]⟩

-- ============================================================
-- C6 : calculate_initial_liquidity
-- ============================================================

/-- C6 (amended): calculate_initial_liquidity returns the full
geometric mean sqrt(amount_a * amount_b); it fails MathOverflow when
the product exceeds the 64-bit range, and InitialLiquidityTooSmall
when the root is below MINIMUM_LIQUIDITY.  When the product equals
u64::MAX exactly, the sqrt step panics (see the counterexample), so
the success case is stated for products strictly below u64::MAX. -/
theorem initial_liquidity_spec (amount_a amount_b : Nat)
    (haM : amount_a ≤ U64_MAX) (hbM : amount_b ≤ U64_MAX) :
    (U64_MAX < amount_a * amount_b →
      calculate_initial_liquidity amount_a amount_b = .err .MathOverflow)
    ∧ (amount_a * amount_b < U64_MAX →
        ((Nat.sqrt (amount_a * amount_b) < MINIMUM_LIQUIDITY →
          calculate_initial_liquidity amount_a amount_b = .err .InitialLiquidityTooSmall)
        ∧ (MINIMUM_LIQUIDITY ≤ Nat.sqrt (amount_a * amount_b) →
          calculate_initial_liquidity amount_a amount_b =
            .ok (Nat.sqrt (amount_a * amount_b))))) := by
  have hprod : amount_a * amount_b < U128_MOD :=
    lt_of_le_of_lt (Nat.mul_le_mul haM hbM) U64_sq_lt_U128
  constructor
  · intro hover
    unfold calculate_initial_liquidity
    rw [if_neg (not_le.mpr hprod), if_pos (not_le.mpr hover)]
  · intro hlt
    have hmod : amount_a * amount_b % U64_MOD = amount_a * amount_b :=
      Nat.mod_eq_of_lt (lt_trans hlt U64_MAX_lt_MOD)
    have hle : amount_a * amount_b ≤ U64_MAX - 1 := by omega
    constructor
    · intro hsmall
      unfold calculate_initial_liquidity
      rw [if_neg (not_le.mpr hprod), if_neg (not_not_intro (le_of_lt hlt)), hmod,
        sqrt_ok _ hle]
      dsimp only
      rw [if_pos (not_le.mpr hsmall)]
    · intro hbig
      unfold calculate_initial_liquidity
      rw [if_neg (not_le.mpr hprod), if_neg (not_not_intro (le_of_lt hlt)), hmod,
        sqrt_ok _ hle]
      dsimp only
      rw [if_neg (not_not_intro hbig)]

/-- C6 witness: the initial deposit (10000, 40000) mints the full
geometric mean 20000 = sqrt(400000000). -/
theorem initial_liquidity_spec_witness :
    calculate_initial_liquidity 10000 40000 = .ok 20000 := by
  have hsq : Nat.sqrt (10000 * 40000) = 20000 := (Nat.eq_sqrt.mpr (by norm_num)).symm
  have h := ((initial_liquidity_spec 10000 40000 (by norm_num [U64_MAX])
    (by norm_num [U64_MAX])).2 (by norm_num [U64_MAX])).2
    (by rw [hsq]; norm_num [MINIMUM_LIQUIDITY])
  rwa [hsq] at h

/-- C6 counterexample: at amount_a = 2^32 - 1, amount_b = 2^32 + 1 the
product is exactly u64::MAX, the overflow guard passes, and the sqrt
step panics, so the function neither returns the geometric mean nor
fails with one of the claimed errors. -/
theorem initial_liquidity_panic_counterexample :
    calculate_initial_liquidity 4294967295 4294967297 = .panic ∧
      4294967295 * 4294967297 = U64_MAX := by
  have hp : (4294967295 : Nat) * 4294967297 = U64_MAX := by norm_num [U64_MAX]
  refine ⟨?_, hp⟩
  unfold calculate_initial_liquidity
  rw [hp, if_neg (not_le.mpr (lt_of_le_of_lt (le_refl U64_MAX)
    (lt_of_le_of_lt (Nat.le_mul_of_pos_left U64_MAX (by norm_num [U64_MAX]))
      U64_sq_lt_U128))), if_neg (not_not_intro (le_refl U64_MAX)),
    Nat.mod_eq_of_lt U64_MAX_lt_MOD, sqrt_u64max]

-- ============================================================
-- C8 : validate_fee
-- ============================================================

/-- C8 (amended): whenever the basis-point product
numerator * BPS_DENOMINATOR fits in u64 (no wrap-around),
validate_fee returns false exactly when the denominator is zero or
the basis-point rate falls outside [MIN_FEE_BPS, MAX_FEE_BPS].  For
numerators large enough that the unchecked u64 multiply wraps, the
computed rate is taken modulo 2^64 and the characterization fails
(see the counterexample). -/
theorem validate_fee_characterization (numerator denominator : Nat)
    (hnum : numerator * BPS_DENOMINATOR ≤ U64_MAX) :
    validate_fee numerator denominator = true ↔
      (denominator ≠ 0 ∧ MIN_FEE_BPS ≤ numerator * BPS_DENOMINATOR / denominator ∧
        numerator * BPS_DENOMINATOR / denominator ≤ MAX_FEE_BPS) := by
  have hmod : numerator * BPS_DENOMINATOR % U64_MOD = numerator * BPS_DENOMINATOR :=
    Nat.mod_eq_of_lt (lt_of_le_of_lt hnum U64_MAX_lt_MOD)
  unfold validate_fee
  rcases eq_or_ne denominator 0 with h0 | h0
  · subst h0
    simp
  · rw [if_neg h0, hmod]
    simp [h0]

/-- C8 witness: the three examples of the claim, at fee rates 1%
(passes), denominator zero (fails), and 20% (fails). -/
theorem validate_fee_characterization_witness :
    validate_fee 1 100 = true ∧ validate_fee 1 0 = false ∧
      validate_fee 2000 10000 = false := by
  refine ⟨?_, by decide, by decide⟩
  exact (validate_fee_characterization 1 100 (by norm_num [BPS_DENOMINATOR, U64_MAX])).mpr
    (by norm_num [BPS_DENOMINATOR, MIN_FEE_BPS, MAX_FEE_BPS])

/-- C8 counterexample: for numerator = 2^60 + 1, denominator = 10000
the true basis-point rate is 2^60 + 1, far above MAX_FEE_BPS, so the
claim requires validate_fee to return false; but the unchecked u64
multiply wraps modulo 2^64 to exactly 10000 and the function returns
true. -/
theorem validate_fee_overflow_counterexample :
    validate_fee (2 ^ 60 + 1) 10000 = true ∧
      MAX_FEE_BPS < (2 ^ 60 + 1) * BPS_DENOMINATOR / 10000 :=
  ⟨by decide, by norm_num [BPS_DENOMINATOR, MAX_FEE_BPS]⟩

-- ============================================================
-- C3 / C5 : calculate_liquidity_to_mint
-- ============================================================

/-- C3: the claim says any liquidity quotient whose true 128-bit value
exceeds u64::MAX must fail with MathOverflow; instead the bare
`as u64` narrowing keeps only the low 64 bits.  At amount_a =
amount_b = 2^63, reserves 1, total_supply 3 the true quotient is
3 * 2^63 > u64::MAX, yet the function succeeds and returns the
truncated value 2^63. -/
theorem liquidity_to_mint_silent_truncation :
    calculate_liquidity_to_mint (2 ^ 63) (2 ^ 63) 1 1 3 = .ok (2 ^ 63) ∧
      2 ^ 63 * 3 / 1 = 3 * 2 ^ 63 ∧ U64_MAX < 3 * 2 ^ 63 :=
  ⟨by decide, by norm_num, by norm_num [U64_MAX]⟩

/-- C5 (amended): when reserves and supply are positive and both true
candidate quotients fit in u64 (so the bare `as u64` narrowing is the
identity), calculate_liquidity_to_mint returns exactly the minimum of
the two candidate share counts, and fails with
InsufficientLiquidityMinted exactly when that minimum is zero. -/
theorem liquidity_to_mint_min_spec
    (amount_a amount_b reserve_a reserve_b total_supply : Nat)
    (hra : 0 < reserve_a) (hrb : 0 < reserve_b) (hts : 0 < total_supply)
    (haM : amount_a ≤ U64_MAX) (hbM : amount_b ≤ U64_MAX) (htsM : total_supply ≤ U64_MAX)
    (hqa : amount_a * total_supply / reserve_a ≤ U64_MAX)
    (hqb : amount_b * total_supply / reserve_b ≤ U64_MAX) :
    (0 < min (amount_a * total_supply / reserve_a) (amount_b * total_supply / reserve_b) →
      calculate_liquidity_to_mint amount_a amount_b reserve_a reserve_b total_supply =
        .ok (min (amount_a * total_supply / reserve_a)
          (amount_b * total_supply / reserve_b)))
    ∧ (min (amount_a * total_supply / reserve_a) (amount_b * total_supply / reserve_b) = 0 →
      calculate_liquidity_to_mint amount_a amount_b reserve_a reserve_b total_supply =
        .err .InsufficientLiquidityMinted) := by
  have hpa : amount_a * total_supply < U128_MOD :=
    lt_of_le_of_lt (Nat.mul_le_mul haM htsM) U64_sq_lt_U128
  have hpb : amount_b * total_supply < U128_MOD :=
    lt_of_le_of_lt (Nat.mul_le_mul hbM htsM) U64_sq_lt_U128
  have hma : amount_a * total_supply / reserve_a % U64_MOD =
      amount_a * total_supply / reserve_a :=
    Nat.mod_eq_of_lt (lt_of_le_of_lt hqa U64_MAX_lt_MOD)
  have hmb : amount_b * total_supply / reserve_b % U64_MOD =
      amount_b * total_supply / reserve_b :=
    Nat.mod_eq_of_lt (lt_of_le_of_lt hqb U64_MAX_lt_MOD)
  have heval : calculate_liquidity_to_mint amount_a amount_b reserve_a reserve_b total_supply =
      if ¬ 0 < min (amount_a * total_supply / reserve_a)
          (amount_b * total_supply / reserve_b) then
        .err .InsufficientLiquidityMinted
      else
        .ok (min (amount_a * total_supply / reserve_a)
          (amount_b * total_supply / reserve_b)) := by
    unfold calculate_liquidity_to_mint
    rw [if_neg (not_not_intro ⟨hra, hrb⟩), if_neg (not_not_intro hts),
      if_neg (not_le.mpr hpa), if_neg (by omega), hma,
      if_neg (not_le.mpr hpb), if_neg (by omega), hmb]
  constructor
  · intro hpos
    rw [heval, if_neg (not_not_intro hpos)]
  · intro hzero
    rw [heval, if_pos (by omega)]

/-- C5 witness: a deposit in a ratio different from the reserve ratio
is credited with the smaller candidate (100, not 200). -/
theorem liquidity_to_mint_min_spec_witness :
    calculate_liquidity_to_mint 100 200 1000 1000 1000 = .ok 100 := by
  have h := (liquidity_to_mint_min_spec 100 200 1000 1000 1000 (by norm_num)
    (by norm_num) (by norm_num) (by norm_num [U64_MAX]) (by norm_num [U64_MAX])
    (by norm_num [U64_MAX]) (by norm_num [U64_MAX]) (by norm_num [U64_MAX])).1
    (by norm_num)
  norm_num at h
  exact h

/-- C5 counterexample: at amount_a = amount_b = 2^63, reserves 1,
total_supply 5 the minimum of the true candidate quotients is
5 * 2^63, but the function returns the low 64 bits 2^63 instead, so
it does not return the minimum of the two candidate share counts. -/
theorem liquidity_to_mint_min_counterexample :
    calculate_liquidity_to_mint (2 ^ 63) (2 ^ 63) 1 1 5 = .ok (2 ^ 63) ∧
      min (2 ^ 63 * 5 / 1) (2 ^ 63 * 5 / 1) ≠ 2 ^ 63 :=
  ⟨by decide, by norm_num⟩

-- ============================================================
-- C10 : withdrawals never exceed the reserves
-- ============================================================

/-- C10: every successful calculate_amounts_for_liquidity call pays
out at most the pool reserves on each side, so the subsequent reserve
subtraction cannot underflow.  (The function itself enforces
0 < liquidity ≤ total_supply before computing the quotients.) -/
theorem withdrawal_bounded_by_reserves
    (liquidity reserve_a reserve_b total_supply amount_a amount_b : Nat)
    (h : calculate_amounts_for_liquidity liquidity reserve_a reserve_b total_supply =
      .ok (amount_a, amount_b)) :
    amount_a ≤ reserve_a ∧ amount_b ≤ reserve_b := by
  simp only [calculate_amounts_for_liquidity] at h
  split_ifs at h with h1 h2 h3 h4 h5 h6 h7
  injection h with hpair
  injection hpair with hA hB
  have hLT : liquidity ≤ total_supply := h3
  have hT : 0 < total_supply := h2
  constructor
  · calc amount_a = reserve_a * liquidity / total_supply % U64_MOD := hA.symm
      _ ≤ reserve_a * liquidity / total_supply := Nat.mod_le _ _
      _ ≤ reserve_a * total_supply / total_supply :=
        Nat.div_le_div_right (Nat.mul_le_mul (le_refl reserve_a) hLT)
      _ = reserve_a := by
        rw [Nat.mul_div_assoc _ (dvd_refl total_supply), Nat.div_self hT, Nat.mul_one]
  · calc amount_b = reserve_b * liquidity / total_supply % U64_MOD := hB.symm
      _ ≤ reserve_b * liquidity / total_supply := Nat.mod_le _ _
      _ ≤ reserve_b * total_supply / total_supply :=
        Nat.div_le_div_right (Nat.mul_le_mul (le_refl reserve_b) hLT)
      _ = reserve_b := by
        rw [Nat.mul_div_assoc _ (dvd_refl total_supply), Nat.div_self hT, Nat.mul_one]

/-- C10 witness: burning 10 of 100 shares of a (1000, 2000) pool pays
(100, 200), within the reserves. -/
theorem withdrawal_bounded_by_reserves_witness :
    (100 : Nat) ≤ 1000 ∧ (200 : Nat) ≤ 2000 :=
  withdrawal_bounded_by_reserves 10 1000 2000 100 100 200 (by decide)

-- ============================================================
-- C7 : round trip never profits
-- ============================================================

/-- C7: depositing (amount_a, amount_b) and immediately withdrawing
the exact liquidity minted — against the updated reserves and supply —
returns component-wise no more than was deposited. -/
theorem round_trip_no_profit
    (amount_a amount_b reserve_a reserve_b total_supply L outA outB : Nat)
    (h1 : calculate_liquidity_to_mint amount_a amount_b reserve_a reserve_b total_supply =
      .ok L)
    (h2 : calculate_amounts_for_liquidity L (reserve_a + amount_a) (reserve_b + amount_b)
      (total_supply + L) = .ok (outA, outB)) :
    outA ≤ amount_a ∧ outB ≤ amount_b := by
  simp only [calculate_liquidity_to_mint] at h1
  split_ifs at h1 with g1 g2 g3 g4 g5 g6 g7
  injection h1 with hL
  obtain ⟨hra, hrb⟩ := g1
  have hts : 0 < total_supply := g2
  have hLa : L ≤ amount_a * total_supply / reserve_a :=
    hL ▸ le_trans (min_le_left _ _) (Nat.mod_le _ _)
  have hLb : L ≤ amount_b * total_supply / reserve_b :=
    hL ▸ le_trans (min_le_right _ _) (Nat.mod_le _ _)
  have hmulA : L * reserve_a ≤ amount_a * total_supply :=
    (Nat.le_div_iff_mul_le hra).mp hLa
  have hmulB : L * reserve_b ≤ amount_b * total_supply :=
    (Nat.le_div_iff_mul_le hrb).mp hLb
  simp only [calculate_amounts_for_liquidity] at h2
  split_ifs at h2 with k1 k2 k3 k4 k5 k6 k7
  injection h2 with hpair
  injection hpair with hA hB
  have hTL : 0 < total_supply + L := k2
  have hQA : (reserve_a + amount_a) * L / (total_supply + L) ≤ amount_a := by
    have hdistL : (reserve_a + amount_a) * L = reserve_a * L + amount_a * L := by ring
    have hdistR : amount_a * (total_supply + L) =
        amount_a * total_supply + amount_a * L := by ring
    have hle : (reserve_a + amount_a) * L ≤ amount_a * (total_supply + L) := by
      rw [hdistL, hdistR]
      have : reserve_a * L ≤ amount_a * total_supply := by linarith [hmulA]
      linarith
    calc (reserve_a + amount_a) * L / (total_supply + L)
        ≤ amount_a * (total_supply + L) / (total_supply + L) := Nat.div_le_div_right hle
      _ = amount_a := by
        rw [Nat.mul_div_assoc _ (dvd_refl (total_supply + L)), Nat.div_self hTL,
          Nat.mul_one]
  have hQB : (reserve_b + amount_b) * L / (total_supply + L) ≤ amount_b := by
    have hdistL : (reserve_b + amount_b) * L = reserve_b * L + amount_b * L := by ring
    have hdistR : amount_b * (total_supply + L) =
        amount_b * total_supply + amount_b * L := by ring
    have hle : (reserve_b + amount_b) * L ≤ amount_b * (total_supply + L) := by
      rw [hdistL, hdistR]
      have : reserve_b * L ≤ amount_b * total_supply := by linarith [hmulB]
      linarith
    calc (reserve_b + amount_b) * L / (total_supply + L)
        ≤ amount_b * (total_supply + L) / (total_supply + L) := Nat.div_le_div_right hle
      _ = amount_b := by
        rw [Nat.mul_div_assoc _ (dvd_refl (total_supply + L)), Nat.div_self hTL,
          Nat.mul_one]
  constructor
  · calc outA = (reserve_a + amount_a) * L / (total_supply + L) % U64_MOD := hA.symm
      _ ≤ (reserve_a + amount_a) * L / (total_supply + L) := Nat.mod_le _ _
      _ ≤ amount_a := hQA
  · calc outB = (reserve_b + amount_b) * L / (total_supply + L) % U64_MOD := hB.symm
      _ ≤ (reserve_b + amount_b) * L / (total_supply + L) := Nat.mod_le _ _
      _ ≤ amount_b := hQB

/-- C7 witness: depositing (100, 100) into a (1000, 1000) pool with
supply 1000 mints 100 shares; withdrawing those 100 shares from the
updated pool returns exactly (100, 100), no more than deposited. -/
theorem round_trip_no_profit_witness : (100 : Nat) ≤ 100 ∧ (100 : Nat) ≤ 100 :=
  round_trip_no_profit 100 100 1000 1000 1000 100 100 100 (by decide) (by decide)

-- ============================================================
-- C1 / C2 : swap output bounds and the constant-product invariant
-- ============================================================

/-- Core arithmetic fact behind the swap invariant: if the output is
at most the constant-product quotient for some net input `net ≤
amount_in` and is below the output reserve, the post-trade product
does not decrease. -/
theorem constant_product_step (reserve_in reserve_out amount_in net amount_out : Nat)
    (hnet : net ≤ amount_in)
    (hout : amount_out ≤ net * reserve_out / (reserve_in + net))
    (hlt : amount_out < reserve_out) :
    reserve_in * reserve_out ≤ (reserve_in + amount_in) * (reserve_out - amount_out) := by
  have hQmul : net * reserve_out / (reserve_in + net) * (reserve_in + net) ≤
      net * reserve_out := Nat.div_mul_le_self _ _
  have k1 : amount_out * (reserve_in + net) ≤ net * reserve_out :=
    le_trans (Nat.mul_le_mul hout (le_refl _)) hQmul
  obtain ⟨m, hm⟩ := Nat.exists_eq_add_of_le (Nat.le_of_lt hlt)
  have hsub : reserve_out - amount_out = m := by omega
  rw [hsub, hm]
  rw [hm] at k1
  nlinarith [k1, Nat.mul_le_mul hnet (le_refl m)]

/-- Inversion of a successful calculate_swap_output call: the returned
output amount is the narrowed constant-product quotient and is
strictly below the output reserve. -/
theorem swap_success_inversion
    (amount_in reserve_in reserve_out fee_num fee_den amount_out fee_amount : Nat)
    (h : calculate_swap_output amount_in reserve_in reserve_out fee_num fee_den =
      .ok (amount_out, fee_amount)) :
    amount_out = (amount_in - amount_in * fee_num / fee_den % U64_MOD) * reserve_out /
        (reserve_in + (amount_in - amount_in * fee_num / fee_den % U64_MOD)) % U64_MOD
    ∧ amount_out < reserve_out := by
  simp only [calculate_swap_output] at h
  by_cases c1 : ¬ 0 < amount_in
  · rw [if_pos c1] at h
    exact RunResult.noConfusion h
  rw [if_neg c1] at h
  by_cases c2 : ¬ 0 < reserve_in
  · rw [if_pos c2] at h
    exact RunResult.noConfusion h
  rw [if_neg c2] at h
  by_cases c3 : ¬ 0 < reserve_out
  · rw [if_pos c3] at h
    exact RunResult.noConfusion h
  rw [if_neg c3] at h
  by_cases c4 : U128_MOD ≤ amount_in * fee_num
  · rw [if_pos c4] at h
    exact RunResult.noConfusion h
  rw [if_neg c4] at h
  by_cases c5 : fee_den = 0
  · rw [if_pos c5] at h
    exact RunResult.noConfusion h
  rw [if_neg c5] at h
  by_cases c6 : amount_in < amount_in * fee_num / fee_den % U64_MOD
  · rw [if_pos c6] at h
    exact RunResult.noConfusion h
  rw [if_neg c6] at h
  by_cases c7 : U128_MOD ≤ (amount_in - amount_in * fee_num / fee_den % U64_MOD) * reserve_out
  · rw [if_pos c7] at h
    exact RunResult.noConfusion h
  rw [if_neg c7] at h
  by_cases c8 : U128_MOD ≤ reserve_in + (amount_in - amount_in * fee_num / fee_den % U64_MOD)
  · rw [if_pos c8] at h
    exact RunResult.noConfusion h
  rw [if_neg c8] at h
  by_cases c9 : reserve_in + (amount_in - amount_in * fee_num / fee_den % U64_MOD) = 0
  · rw [if_pos c9] at h
    exact RunResult.noConfusion h
  rw [if_neg c9] at h
  by_cases c10 : ¬ 0 < (amount_in - amount_in * fee_num / fee_den % U64_MOD) * reserve_out /
      (reserve_in + (amount_in - amount_in * fee_num / fee_den % U64_MOD)) % U64_MOD
  · rw [if_pos c10] at h
    exact RunResult.noConfusion h
  rw [if_neg c10] at h
  by_cases c11 : ¬ (amount_in - amount_in * fee_num / fee_den % U64_MOD) * reserve_out /
      (reserve_in + (amount_in - amount_in * fee_num / fee_den % U64_MOD)) % U64_MOD <
        reserve_out
  · rw [if_pos c11] at h
    exact RunResult.noConfusion h
  rw [if_neg c11] at h
  injection h with hpair
  injection hpair with hA hF
  exact ⟨hA.symm, hA ▸ not_not.mp c11⟩

/-- C1: every successful swap with positive reserves and a valid fee
rate leaves the constant product non-decreasing:
`(reserve_in + amount_in) * (reserve_out - amount_out)` is at least
`reserve_in * reserve_out`, and verify_invariant accepts the
post-trade reserves (the wide 128-bit products cannot overflow for
u64 reserves). -/
theorem swap_constant_product_nondecreasing
    (amount_in reserve_in reserve_out fee_num fee_den amount_out fee_amount : Nat)
    (hri : 0 < reserve_in) (hro : 0 < reserve_out) (hfd : 0 < fee_den)
    (hlo : MIN_FEE_BPS ≤ fee_num * BPS_DENOMINATOR / fee_den)
    (hhi : fee_num * BPS_DENOMINATOR / fee_den ≤ MAX_FEE_BPS)
    (hriM : reserve_in ≤ U64_MAX) (hroM : reserve_out ≤ U64_MAX)
    (hnewM : reserve_in + amount_in ≤ U64_MAX)
    (h : calculate_swap_output amount_in reserve_in reserve_out fee_num fee_den =
      .ok (amount_out, fee_amount)) :
    reserve_in * reserve_out ≤ (reserve_in + amount_in) * (reserve_out - amount_out)
    ∧ verify_invariant reserve_in reserve_out (reserve_in + amount_in)
        (reserve_out - amount_out) = .ok () := by
  obtain ⟨hA, hlt⟩ := swap_success_inversion _ _ _ _ _ _ _ h
  have hout : amount_out ≤
      (amount_in - amount_in * fee_num / fee_den % U64_MOD) * reserve_out /
        (reserve_in + (amount_in - amount_in * fee_num / fee_den % U64_MOD)) := by
    rw [hA]
    exact Nat.mod_le _ _
  have hmain : reserve_in * reserve_out ≤
      (reserve_in + amount_in) * (reserve_out - amount_out) :=
    constant_product_step reserve_in reserve_out amount_in
      (amount_in - amount_in * fee_num / fee_den % U64_MOD) amount_out
      (Nat.sub_le _ _) hout hlt
  refine ⟨hmain, ?_⟩
  have hold : reserve_in * reserve_out < U128_MOD :=
    lt_of_le_of_lt (Nat.mul_le_mul hriM hroM) U64_sq_lt_U128
  have hsubM : reserve_out - amount_out ≤ U64_MAX := le_trans (Nat.sub_le _ _) hroM
  have hnew : (reserve_in + amount_in) * (reserve_out - amount_out) < U128_MOD :=
    lt_of_le_of_lt (Nat.mul_le_mul hnewM hsubM) U64_sq_lt_U128
  unfold verify_invariant
  rw [if_neg (not_le.mpr hold), if_neg (not_le.mpr hnew), if_neg (not_not_intro hmain)]

/-- C1 witness: the swap of 100 into a (1000000, 1000000) pool at fee
3/1000 pays out 99 and the product grows. -/
theorem swap_constant_product_witness :
    (1000000 : Nat) * 1000000 ≤ (1000000 + 100) * (1000000 - 99) ∧
      verify_invariant 1000000 1000000 (1000000 + 100) (1000000 - 99) = .ok () :=
  swap_constant_product_nondecreasing 100 1000000 1000000 3 1000 99 0
    (by norm_num) (by norm_num) (by norm_num)
    (by norm_num [MIN_FEE_BPS, BPS_DENOMINATOR])
    (by norm_num [MAX_FEE_BPS, BPS_DENOMINATOR])
    (by norm_num [U64_MAX]) (by norm_num [U64_MAX]) (by norm_num [U64_MAX])
    (by decide)

/-- C2: every successful swap returns an output amount strictly below
the output-side reserve, so one trade can never fully drain a
reserve.  (The final guard of the function errors with
InsufficientLiquidity on any candidate output reaching the
reserve.) -/
theorem swap_output_lt_reserve_out
    (amount_in reserve_in reserve_out fee_num fee_den amount_out fee_amount : Nat)
    (h : calculate_swap_output amount_in reserve_in reserve_out fee_num fee_den =
      .ok (amount_out, fee_amount)) :
    amount_out < reserve_out :=
  (swap_success_inversion amount_in reserve_in reserve_out fee_num fee_den amount_out
    fee_amount h).2

/-- C2 witness: a fee-free swap of 1000 into a (1000000, 1000000)
pool pays out 999, strictly below the output reserve. -/
theorem swap_output_lt_reserve_out_witness : (999 : Nat) < 1000000 :=
  swap_output_lt_reserve_out 1000 1000000 1000000 0 1 999 0 (by decide)

-- ============================================================
-- C9 : zero computed output
-- ============================================================

/-- C9 (amended): when the pool guards pass and the constant-product
quotient truncates to zero, calculate_swap_output fails with the
InsufficientOutputAmount error kind (not AmountTooSmall, which is
reserved for a zero input amount). -/
theorem swap_zero_output_error
    (amount_in reserve_in reserve_out fee_num fee_den : Nat)
    (ha : 0 < amount_in) (hri : 0 < reserve_in) (hro : 0 < reserve_out)
    (haM : amount_in ≤ U64_MAX) (hfnM : fee_num ≤ U64_MAX)
    (hroM : reserve_out ≤ U64_MAX) (hriM : reserve_in ≤ U64_MAX)
    (hfd : fee_den ≠ 0)
    (hfee : amount_in * fee_num / fee_den % U64_MOD ≤ amount_in)
    (hq : (amount_in - amount_in * fee_num / fee_den % U64_MOD) * reserve_out /
      (reserve_in + (amount_in - amount_in * fee_num / fee_den % U64_MOD)) = 0) :
    calculate_swap_output amount_in reserve_in reserve_out fee_num fee_den =
      .err .InsufficientOutputAmount := by
  have hp1 : amount_in * fee_num < U128_MOD :=
    lt_of_le_of_lt (Nat.mul_le_mul haM hfnM) U64_sq_lt_U128
  have hnetM : amount_in - amount_in * fee_num / fee_den % U64_MOD ≤ U64_MAX :=
    le_trans (Nat.sub_le _ _) haM
  have hp2 : (amount_in - amount_in * fee_num / fee_den % U64_MOD) * reserve_out <
      U128_MOD := lt_of_le_of_lt (Nat.mul_le_mul hnetM hroM) U64_sq_lt_U128
  have hsum : U64_MAX + U64_MAX < U128_MOD := by norm_num [U64_MAX, U128_MOD]
  have hp3 : reserve_in + (amount_in - amount_in * fee_num / fee_den % U64_MOD) <
      U128_MOD := by omega
  have hp4 : reserve_in + (amount_in - amount_in * fee_num / fee_den % U64_MOD) ≠ 0 :=
    Nat.pos_iff_ne_zero.mp (lt_of_lt_of_le hri (Nat.le_add_right _ _))
  simp only [calculate_swap_output]
  rw [if_neg (not_not_intro ha), if_neg (not_not_intro hri), if_neg (not_not_intro hro),
    if_neg (not_le.mpr hp1), if_neg hfd, if_neg (not_lt.mpr hfee),
    if_neg (not_le.mpr hp2), if_neg (not_le.mpr hp3), if_neg hp4,
    if_pos (by rw [hq]; simp)]

/-- C9 witness: swapping 1 unit into a (1000, 1000) pool at fee
3/1000 computes output 1000/1001 = 0 and fails with
InsufficientOutputAmount. -/
theorem swap_zero_output_error_witness :
    calculate_swap_output 1 1000 1000 3 1000 = .err .InsufficientOutputAmount :=
  swap_zero_output_error 1 1000 1000 3 1000 (by decide) (by decide) (by decide)
    (by norm_num [U64_MAX]) (by norm_num [U64_MAX]) (by norm_num [U64_MAX])
    (by norm_num [U64_MAX]) (by decide) (by decide) (by decide)

/-- C9 counterexample: the claim names the AmountTooSmall error kind,
but on a zero computed output the code fails with
InsufficientOutputAmount instead. -/
theorem swap_zero_output_counterexample :
    calculate_swap_output 1 1000 1000 3 1000 = .err .InsufficientOutputAmount ∧
      calculate_swap_output 1 1000 1000 3 1000 ≠ .err .AmountTooSmall :=
  ⟨by decide, by decide⟩

end Vortex
